import Mathlib

/-!
Shallow embedding of `src/cricket_dashboard.py`.

Dataframes are modelled as a list of column names together with rows given
as association lists from column names to cell values.  Cell values are
strings, numbers (modelled as integers: every numeric cell this
development reasons about is integral, and float addition on such values
is exact), or `vna` (pandas NaN / missing).  Pandas dtype bookkeeping is replaced by a
value-level numeric test on the frame at hand; overlapping non-key columns
in a merge (which pandas would suffix) do not occur in this program's
inputs and are modelled by keeping the left frame's column.
-/

/-- A cell value: a string, a numeric value, or NaN/missing. -/
inductive Value where
  | vstr : String → Value
  | vnum : Int → Value
  | vna  : Value
deriving DecidableEq

/-- A row: association list from column name to value (first match wins). -/
abbrev Row := List (String × Value)

/-- Cell lookup in a row; absent keys read as NaN (rows of a well-formed
frame carry every column of the frame). -/
def getV (r : Row) (c : String) : Value :=
  match r.find? (fun kv => kv.1 == c) with
  | some kv => kv.2
  | none => Value.vna

/-- A dataframe: column names plus rows. -/
structure DF where
  cols : List String
  rows : List Row
deriving DecidableEq

deriving instance DecidableEq for Except

/-- `pd.DataFrame()`: no columns, no rows. -/
def emptyDF : DF := ⟨[], []⟩

/-- `df.empty` (true iff the frame has no rows; the column-less empty frame
also has no rows). -/
def DF.isEmpty (df : DF) : Bool := df.rows.isEmpty

/-- A value is numeric (a number or NaN) — stands for pandas numeric dtype. -/
def isNumV : Value → Bool
  | Value.vnum _ => true
  | Value.vna => true
  | _ => false

/-- Numeric reading of a value; NaN reads as 0 (pandas sum skips NaN). -/
def numOf : Value → Int
  | Value.vnum q => q
  | _ => 0

/-- Strip leading and trailing whitespace from a character list
(`str.strip()`). -/
def trimChars (cs : List Char) : List Char :=
  ((cs.dropWhile Char.isWhitespace).reverse.dropWhile Char.isWhitespace).reverse

/-- Column-header normalization of the loader:
`df.columns.str.strip().str.lower()`. -/
def normName (s : String) : String :=
  String.mk ((trimChars s.data).map Char.toLower)

/-! ### Dataset Loader (lines 30–73 of the source) -/

/-- Normalize all column headers of a frame
(`df.columns = df.columns.str.strip().str.lower()`). -/
def normalizeDF (df : DF) : DF :=
  ⟨df.cols.map normName, df.rows.map (fun r => r.map (fun kv => (normName kv.1, kv.2)))⟩

/-- `df.rename(columns={old: new})`: a no-op when `old` is absent. -/
def renameCol (df : DF) (old new : String) : DF :=
  ⟨df.cols.map (fun c => if c = old then new else c),
   df.rows.map (fun r => r.map (fun kv => (if kv.1 = old then new else kv.1, kv.2)))⟩

/-- Set key `c` to `v` in a row (any previous binding removed, new one at
the end). -/
def setKV (r : Row) (c : String) (v : Value) : Row :=
  r.filter (fun kv => ¬ kv.1 = c) ++ [(c, v)]

/-- `df[c] = v`: assign a constant column. -/
def assignCol (df : DF) (c : String) (v : Value) : DF :=
  ⟨if c ∈ df.cols then df.cols else df.cols ++ [c],
   df.rows.map (fun r => setKV r c v)⟩

/-- Columns the left join pulls in from the right frame: the right frame's
columns without the join key and without columns already present on the
left (the latter do not occur in this program's inputs; pandas would
suffix them). -/
def rightOnlyCols (l r : DF) (key : String) : List String :=
  r.cols.filter (fun c => ¬ c = key ∧ ¬ c ∈ l.cols)

/-- `l.merge(r, on=key, how="left")`.  Raises (KeyError) when the key
column is missing from either frame — in particular when the right frame
is the column-less empty frame.  A left row with no match keeps all
right-side columns as NaN; NaN keys match nothing; a left row with several
matches yields one output row per match. -/
def mergeLeft (l r : DF) (key : String) : Except String DF :=
  if key ∈ l.cols ∧ key ∈ r.cols then
    Except.ok
      ⟨l.cols ++ rightOnlyCols l r key,
       l.rows.flatMap (fun lr =>
         let ms := r.rows.filter (fun rr =>
           decide (getV rr key = getV lr key ∧ ¬ getV lr key = Value.vna))
         match ms with
         | [] => [lr ++ (rightOnlyCols l r key).map (fun c => (c, Value.vna))]
         | _ => ms.map (fun rr => lr ++ (rightOnlyCols l r key).map (fun c => (c, getV rr c))))⟩
  else Except.error "KeyError"

/-- `pd.concat(dfs, ignore_index=True)` on a non-empty list; the source
uses `pd.DataFrame()` when the list is empty. -/
def concatDF (dfs : List DF) : DF :=
  match dfs with
  | [] => emptyDF
  | _ => ⟨dfs.foldl (fun acc d => acc ++ d.cols.filter (fun c => ¬ c ∈ acc)) [],
          dfs.flatMap (fun d => d.rows)⟩

/-- One iteration of the per-format load loop for one category
(lines 44–51): a missing file, or any exception from the merge, is caught
by the surrounding handler and the slice is skipped (`none`); otherwise
headers are normalized, the frame is left-joined to the directory on
`"id"` and tagged with its format. -/
def loadSlice (dir : DF) (fmt : String) (csv : Option DF) : Option DF :=
  match csv with
  | none => none
  | some raw =>
    match mergeLeft (normalizeDF raw) dir "id" with
    | Except.error _ => none
    | Except.ok m => some (assignCol m "format" (Value.vstr fmt))

/-- A category's UnifiedTable: concatenation of the slices that loaded
(lines 71–73). -/
def loadCategoryTable (dir : DF) (files : List (String × Option DF)) : DF :=
  concatDF (files.filterMap (fun fo => loadSlice dir fo.1 fo.2))

/-- Loading `all_players.csv` (lines 35–41): on failure the directory is
the column-less empty frame; on success headers are normalized and the
`name` column renamed to `player`. -/
def loadDirectory (csv : Option DF) : DF :=
  match csv with
  | some raw => renameCol (normalizeDF raw) "name" "player"
  | none => emptyDF

/-! ### Player Index (lines 78–83) -/

/-- `df[c]` as a value list, `none` when the column is missing (KeyError). -/
def colValsOpt (df : DF) (c : String) : Option (List Value) :=
  if c ∈ df.cols then some (df.rows.map (fun r => getV r c)) else none

/-- The string under a value (only used on values known to be strings). -/
def strOf : Value → String
  | Value.vstr s => s
  | _ => ""

/-- A value is a string. -/
def isStrV : Value → Bool
  | Value.vstr _ => true
  | _ => false

/-- Lexicographic comparison of character lists by code point — the
ordering Python's `sorted` and pandas' `groupby(sort=True)` use on
strings. -/
def listCharLe : List Char → List Char → Bool
  | [], _ => true
  | _ :: _, [] => false
  | a :: as, b :: bs =>
    if a.toNat < b.toNat then true
    else if b.toNat < a.toNat then false
    else listCharLe as bs

/-- Lexicographic string comparison by code point. -/
def strLeB (a b : String) : Bool := listCharLe a.data b.data

/-- Insert into a list sorted by `le`. -/
def insertLeBy (le : α → α → Bool) (x : α) : List α → List α
  | [] => [x]
  | y :: ys => if le x y then x :: y :: ys else y :: insertLeBy le x ys

/-- Insertion sort by `le` (ascending, stable). -/
def sortBy (le : α → α → Bool) : List α → List α
  | [] => []
  | x :: xs => insertLeBy le x (sortBy le xs)

/-- Python `sorted` over a set of cell values.  Uniform lists of strings
sort lexicographically; comparing a string with a float (NaN) raises
`TypeError`; lists without strings (floats and NaNs) sort without raising
(a NaN's exact final position is not relied upon by the program). -/
def pySorted (vs : List Value) : Except String (List Value) :=
  if vs.length ≤ 1 then Except.ok vs
  else if vs.all isStrV then
    Except.ok (sortBy (fun a b => strLeB (strOf a) (strOf b)) vs)
  else if vs.any isStrV then Except.error "TypeError"
  else Except.ok (sortBy (fun a b => decide (numOf a ≤ numOf b)) vs)

/-- `player_names` (lines 78–83): the union of the distinct `player`
values of the three UnifiedTables, sorted.  A missing `player` column in
any table raises KeyError, which the source catches, yielding an empty
set; the `sorted` call itself is outside that handler. -/
def playerIndex (bt bw ar : DF) : Except String (List Value) :=
  match colValsOpt bt "player", colValsOpt bw "player", colValsOpt ar "player" with
  | some a, some b, some c => pySorted ((a ++ b ++ c).dedup)
  | _, _, _ => Except.ok []

/-! ### Stat Aggregator `get_stats` (lines 88–92) -/

/-- `df[df[c] == v]`: keep the rows whose cell at `c` equals `v` (exact,
case-sensitive equality; a NaN cell never equals a string). -/
def filterEqDF (df : DF) (c : String) (v : Value) : DF :=
  ⟨df.cols, df.rows.filter (fun r => decide (getV r c = v))⟩

/-- `df[df[c].isin(vs)]` for a list of strings `vs`. -/
def filterInDF (df : DF) (c : String) (vs : List String) : DF :=
  ⟨df.cols, df.rows.filter (fun r => decide (getV r c ∈ vs.map Value.vstr))⟩

/-- `df.drop(columns=[c])`. -/
def dropColDF (df : DF) (c : String) : DF :=
  ⟨df.cols.filter (fun c2 => ¬ c2 = c),
   df.rows.map (fun r => r.filter (fun kv => ¬ kv.1 = c))⟩

/-- A column is numeric in a frame when every cell is a number or NaN
(stands for pandas numeric dtype; `numeric_only=True` keeps exactly the
numeric columns). -/
def numericCol (rows : List Row) (c : String) : Bool :=
  rows.all (fun r => isNumV (getV r c))

/-- Sum of a column over rows (NaN summed as 0, as pandas `sum` skips
NaN). -/
def sumCol (rows : List Row) (c : String) : Int :=
  (rows.map (fun r => numOf (getV r c))).sum

/-- The distinct string values of the group key, in first-appearance
order (rows with a NaN key are dropped, as pandas `groupby` drops NaN
keys). -/
def groupKeys (rows : List Row) (key : String) : List String :=
  (rows.filterMap (fun r =>
    match getV r key with
    | Value.vstr s => some s
    | _ => none)).dedup

/-- One aggregated output row: the group key value first, then each kept
numeric column summed over the key's group. -/
def aggRow (rows : List Row) (key : String) (numCols : List String) (k : String) : Row :=
  (key, Value.vstr k) ::
    numCols.map (fun c =>
      (c, Value.vnum (sumCol (rows.filter (fun r =>
        decide (getV r key = Value.vstr k))) c)))

/-- `df.groupby(key).sum(numeric_only=True).reset_index()`: one output
row per distinct key value, keys sorted ascending (pandas `sort=True`),
each remaining numeric column summed over the group, non-numeric columns
dropped, the key re-installed as the first column.  Raises (KeyError) when
the key column is missing. -/
def groupbySum (df : DF) (key : String) : Except String DF :=
  if key ∈ df.cols then
    Except.ok
      ⟨key :: df.cols.filter (fun c => ¬ c = key ∧ numericCol df.rows c),
       (sortBy strLeB (groupKeys df.rows key)).map
         (aggRow df.rows key
           (df.cols.filter (fun c => ¬ c = key ∧ numericCol df.rows c)))⟩
  else Except.error "KeyError"

/-- The `player` column of a frame as a value list (the rows' cells). -/
def playerVals (df : DF) : List Value :=
  df.rows.map (fun r => getV r "player")

/-- `get_stats(df, player)` (lines 88–92): empty frame or absent player
gives an empty frame; otherwise filter to the player's rows, drop the
`player` column, and group-and-sum by `format`.  A non-empty frame without
a `player` column would raise (KeyError) at the membership test. -/
def get_stats (df : DF) (player : String) : Except String DF :=
  if df.isEmpty then Except.ok emptyDF
  else if "player" ∈ df.cols then
    if Value.vstr player ∈ playerVals df then
      groupbySum (dropColDF (filterEqDF df "player" (Value.vstr player)) "player") "format"
    else Except.ok emptyDF
  else Except.error "KeyError"

/-! ### Comparison View chart (lines 112–131) -/

/-- The chart's metric list (line 125): batting compares runs, average
and strike rate; every other category compares wickets. -/
def metricsFor (label : String) : List String :=
  if label = "Batting" then ["runs", "average_score", "strike_rate"] else ["wk"]

/-- The chart's per-player re-aggregation (line 128): filter the
category table to the selection, then to one player, and group-and-sum by
format (the `player` column is kept; being non-numeric it is dropped by
the sum). -/
def chartSubset (df : DF) (selected : List String) (p : String) : Except String DF :=
  groupbySum (filterEqDF (filterInDF df "player" selected) "player" (Value.vstr p)) "format"

/-! ### Summary prompt (lines 141–147) -/

/-- Rendering of a cell value in an f-string.  The int/float display
distinction of pandas dtypes is not tracked: integral numbers render with
no fractional part. -/
def renderV : Value → String
  | Value.vstr s => s
  | Value.vnum n => toString n
  | Value.vna => "nan"

/-- `row.get(c, "-")` rendered: the placeholder dash appears exactly when
the key is missing from the row. -/
def cellStr (r : Row) (c : String) : String :=
  match r.find? (fun kv => kv.1 == c) with
  | some kv => renderV kv.2
  | none => "-"

/-- One batting line of the prompt (line 145). -/
def battingLine (r : Row) : String :=
  "Batting - " ++ renderV (getV r "format") ++ ": " ++ cellStr r "runs" ++
    " runs, Avg: " ++ cellStr r "average_score" ++ ", SR: " ++ cellStr r "strike_rate" ++ "\n"

/-- One bowling line of the prompt (line 147). -/
def bowlingLine (r : Row) : String :=
  "Bowling - " ++ renderV (getV r "format") ++ ": " ++ cellStr r "wk" ++ " wickets\n"

/-- One iteration of the prompt loop (lines 142–147): append the player
header, then one line per row of the player's aggregated batting stats,
then one line per row of the player's aggregated bowling stats. -/
def promptStep (bt bw : DF) (acc : Except String String) (player : String) :
    Except String String :=
  match acc with
  | Except.error e => Except.error e
  | Except.ok a =>
    match get_stats bt player with
    | Except.error e => Except.error e
    | Except.ok bs =>
      let a2 := bs.rows.foldl (fun s r => s ++ battingLine r)
        (a ++ "\nPlayer: " ++ player ++ "\n")
      match get_stats bw player with
      | Except.error e => Except.error e
      | Except.ok ws => Except.ok (ws.rows.foldl (fun s r => s ++ bowlingLine r) a2)

/-- The whole prompt (lines 141–147): the fixed instruction line followed
by the per-player blocks, built by string accumulation. -/
def buildPrompt (selected : List String) (bt bw : DF) : Except String String :=
  selected.foldl (promptStep bt bw)
    (Except.ok "Summarize the cricket performance of the following players:\n")

/-! ### Summary file (lines 149–158) -/

/-- A file store: paths to contents. -/
abbrev FS := List (String × String)

/-- `open(path, "w")` followed by `write(content)`: whole-file overwrite. -/
def writeFile (fs : FS) (path content : String) : FS :=
  (path, content) :: fs.filter (fun kv => ¬ kv.1 = path)

/-- Read a file's contents. -/
def readFile (fs : FS) (path : String) : Option String :=
  match fs.find? (fun kv => kv.1 == path) with
  | some kv => some kv.2
  | none => none

/-- The success path of the summary handler (lines 149–158): a successful
generation writes the response text to `summary.txt`; a failure leaves
the store untouched and writes nothing. -/
def summaryAction (fs : FS) (resp : Except String String) : FS × Option String :=
  match resp with
  | Except.ok t => (writeFile fs "summary.txt" t, some t)
  | Except.error _ => (fs, none)

/-! ### Concrete scenario data

The worked example of the spec: a directory with one player
(id 1, name "A Sharma"), ODI and TEST batting rows for id 1, and an ODI
bowling row for id 2, an identifier absent from the directory. -/

/-- The raw `all_players.csv` frame (headers not yet normalized). -/
def exDirCsv : DF :=
  ⟨["ID", "Name"], [[("ID", Value.vnum 1), ("Name", Value.vstr "A Sharma")]]⟩

/-- The raw `ODI_batting.csv` frame. -/
def exOdiBat : DF :=
  ⟨["id", "runs", "average_score", "strike_rate"],
   [[("id", Value.vnum 1), ("runs", Value.vnum 50),
     ("average_score", Value.vnum 50), ("strike_rate", Value.vnum 80)]]⟩

/-- The raw `TEST_batting.csv` frame. -/
def exTestBat : DF :=
  ⟨["id", "runs", "average_score", "strike_rate"],
   [[("id", Value.vnum 1), ("runs", Value.vnum 30),
     ("average_score", Value.vnum 30), ("strike_rate", Value.vnum 40)]]⟩

/-- The raw `ODI_bowling.csv` frame: its id 2 does not appear in the
directory. -/
def exOdiBowl : DF :=
  ⟨["id", "wk"], [[("id", Value.vnum 2), ("wk", Value.vnum 3)]]⟩

/-- The raw `ODI_all_round.csv` frame. -/
def exOdiAllr : DF :=
  ⟨["id", "wk"], [[("id", Value.vnum 1), ("wk", Value.vnum 1)]]⟩

/-- The loaded player directory of the scenario. -/
def exDir : DF := loadDirectory (some exDirCsv)

/-- The batting UnifiedTable of the scenario (the T20 file is absent). -/
def exBattingTable : DF :=
  loadCategoryTable exDir
    [("ODI", some exOdiBat), ("TEST", some exTestBat), ("T20", none)]

/-- The bowling UnifiedTable of the scenario. -/
def exBowlingTable : DF :=
  loadCategoryTable exDir [("ODI", some exOdiBowl), ("TEST", none), ("T20", none)]

/-- The all-round UnifiedTable of the scenario. -/
def exAllRoundTable : DF :=
  loadCategoryTable exDir [("ODI", some exOdiAllr), ("TEST", none), ("T20", none)]

/-- The actual aggregated batting output of the scenario: note the summed
`id` column alongside the metric columns. -/
def exAggOut : DF :=
  ⟨["format", "id", "runs", "average_score", "strike_rate"],
   [[("format", Value.vstr "ODI"), ("id", Value.vnum 1), ("runs", Value.vnum 50),
     ("average_score", Value.vnum 50), ("strike_rate", Value.vnum 80)],
    [("format", Value.vstr "TEST"), ("id", Value.vnum 1), ("runs", Value.vnum 30),
     ("average_score", Value.vnum 30), ("strike_rate", Value.vnum 40)]]⟩

/-- The aggregated output the spec example describes, read literally:
rows carrying only the format and the three batting metrics. -/
def claimedAggOut : DF :=
  ⟨["format", "runs", "average_score", "strike_rate"],
   [[("format", Value.vstr "ODI"), ("runs", Value.vnum 50),
     ("average_score", Value.vnum 50), ("strike_rate", Value.vnum 80)],
    [("format", Value.vstr "TEST"), ("runs", Value.vnum 30),
     ("average_score", Value.vnum 30), ("strike_rate", Value.vnum 40)]]⟩

/-- C1.  A stat row whose id misses the directory is indeed kept by the
left join with a NaN player field, but the Player Index is then NOT the
graceful exclusion the claim describes: `sorted` over the mixed
NaN/string set raises TypeError, outside any handler, so the script
terminates.  The claim describes the intended behavior; the code crashes. -/
theorem C1_join_miss_crashes_index :
    playerVals exBowlingTable = [Value.vna] ∧
    getV ((exBowlingTable.rows).getD 0 []) "wk" = Value.vnum 3 ∧
    playerIndex exBattingTable exBowlingTable exAllRoundTable =
      Except.error "TypeError" := by
  refine ⟨by decide, by decide, by decide⟩

/-- C2.  When the directory file fails to load, the fallback directory is
the column-less empty frame; every subsequent merge then raises KeyError
(no `id` column on the right), the per-slice handler swallows it, and the
loaded stat rows are dropped instead of appearing with empty player
fields: the category's UnifiedTable comes out empty although its ODI
file loaded a row. -/
theorem C2_directory_failure_drops_loaded_slices :
    loadDirectory none = emptyDF ∧
    mergeLeft (normalizeDF exOdiBat) (loadDirectory none) "id" =
      Except.error "KeyError" ∧
    loadCategoryTable (loadDirectory none)
      [("ODI", some exOdiBat), ("TEST", none), ("T20", none)] = emptyDF ∧
    exOdiBat.rows ≠ [] := by
  refine ⟨by decide, by decide, by decide, by decide⟩

/-- C5 (counterexample).  On the spec's own example data the aggregator
does not return the two four-field rows the claim lists: each returned
row additionally carries the summed `id` column (value 1). -/
theorem C5_rows_carry_id_counterexample :
    get_stats exBattingTable "A Sharma" ≠ Except.ok claimedAggOut ∧
    get_stats exBattingTable "A Sharma" = Except.ok exAggOut ∧
    getV ((exAggOut.rows).getD 0 []) "id" = Value.vnum 1 ∧
    getV ((exAggOut.rows).getD 1 []) "id" = Value.vnum 1 := by
  refine ⟨by decide, by decide, by decide, by decide⟩

/-- C5 (amended).  On the example data the aggregator filters to the
player's rows, drops `player`, groups by format and sums the numeric
columns, returning exactly the ODI row (runs 50, average 50, strike rate
80) and the TEST row (runs 30, average 30, strike rate 40) — each row
also carrying the summed identifier column id = 1. -/
theorem C5_example_aggregation_amended :
    get_stats exBattingTable "A Sharma" = Except.ok exAggOut := by
  decide

/-- C8.  A successful generation overwrites `summary.txt` with the
response text: after two successful generations the file holds exactly
the second text, nothing of the first. -/
theorem C8_summary_overwrite (fs : FS) (t1 t2 : String) :
    readFile (summaryAction (summaryAction fs (Except.ok t1)).1
      (Except.ok t2)).1 "summary.txt" = some t2 := by
  simp [readFile, summaryAction, writeFile]

/-! ### Supporting lemmas -/

/-- `listCharLe` is total. -/
theorem listCharLe_total : ∀ as bs : List Char,
    listCharLe as bs = true ∨ listCharLe bs as = true := by
  intro as
  induction as with
  | nil => intro bs; left; rfl
  | cons a as ih =>
    intro bs
    cases bs with
    | nil => right; rfl
    | cons b bs =>
      by_cases h1 : a.toNat < b.toNat
      · left; simp [listCharLe, h1]
      · by_cases h2 : b.toNat < a.toNat
        · right; simp [listCharLe, h2]
        · have := ih bs
          simpa [listCharLe, h1, h2] using this

/-- `listCharLe` is transitive. -/
theorem listCharLe_trans : ∀ as bs cs : List Char,
    listCharLe as bs = true → listCharLe bs cs = true →
      listCharLe as cs = true := by
  intro as
  induction as with
  | nil => intro bs cs h1 h2; rfl
  | cons a as ih =>
    intro bs cs h1 h2
    cases bs with
    | nil => simp [listCharLe] at h1
    | cons b bs =>
      cases cs with
      | nil => simp [listCharLe] at h2
      | cons c cs =>
        simp only [listCharLe] at h1 h2 ⊢
        split_ifs at h1 h2 ⊢ <;>
          first
            | trivial
            | (exact ih bs cs h1 h2)
            | (exfalso; omega)

/-- `strLeB` is total. -/
theorem strLeB_total (a b : String) : strLeB a b = true ∨ strLeB b a = true :=
  listCharLe_total a.data b.data

/-- `strLeB` is transitive. -/
theorem strLeB_trans (a b c : String) (h1 : strLeB a b = true)
    (h2 : strLeB b c = true) : strLeB a c = true :=
  listCharLe_trans a.data b.data c.data h1 h2

/-- Inserting permutes to consing. -/
theorem perm_insertLeBy (le : α → α → Bool) (x : α) :
    ∀ l : List α, List.Perm (insertLeBy le x l) (x :: l) := by
  intro l
  induction l with
  | nil => exact List.Perm.refl _
  | cons y ys ih =>
    by_cases h : le x y
    · simp only [insertLeBy, if_pos h]
      exact List.Perm.refl _
    · simp only [insertLeBy, if_neg h]
      exact List.Perm.trans (List.Perm.cons y ih) (List.Perm.swap x y ys)

/-- Sorting permutes the input. -/
theorem perm_sortBy (le : α → α → Bool) :
    ∀ l : List α, List.Perm (sortBy le l) l := by
  intro l
  induction l with
  | nil => exact List.Perm.refl _
  | cons x xs ih =>
    exact List.Perm.trans (perm_insertLeBy le x _) (List.Perm.cons x ih)

/-- Membership is preserved by sorting. -/
theorem mem_sortBy {le : α → α → Bool} {l : List α} {x : α}
    (h : x ∈ sortBy le l) : x ∈ l :=
  (perm_sortBy le l).mem_iff.mp h

/-- Inserting into a `le`-sorted list keeps it sorted, for total and
transitive `le`. -/
theorem pairwise_insertLeBy (le : α → α → Bool)
    (htot : ∀ a b, le a b = true ∨ le b a = true)
    (htrans : ∀ a b c, le a b = true → le b c = true → le a c = true)
    (x : α) :
    ∀ l : List α, List.Pairwise (fun a b => le a b = true) l →
      List.Pairwise (fun a b => le a b = true) (insertLeBy le x l) := by
  intro l
  induction l with
  | nil => intro _; simp [insertLeBy]
  | cons y ys ih =>
    intro hp
    rcases List.pairwise_cons.mp hp with ⟨hy, hys⟩
    by_cases h : le x y
    · simp only [insertLeBy, if_pos h]
      refine List.pairwise_cons.mpr ⟨?_, hp⟩
      intro z hz
      rcases List.mem_cons.mp hz with rfl | hz2
      · exact h
      · exact htrans x y z h (hy z hz2)
    · simp only [insertLeBy, if_neg h]
      have hyx : le y x = true := (htot x y).resolve_left h
      refine List.pairwise_cons.mpr ⟨?_, ih hys⟩
      intro z hz
      rcases List.mem_cons.mp ((perm_insertLeBy le x ys).mem_iff.mp hz) with rfl | hz3
      · exact hyx
      · exact hy z hz3

/-- The result of `sortBy` is sorted, for total and transitive `le`. -/
theorem pairwise_sortBy (le : α → α → Bool)
    (htot : ∀ a b, le a b = true ∨ le b a = true)
    (htrans : ∀ a b c, le a b = true → le b c = true → le a c = true) :
    ∀ l : List α, List.Pairwise (fun a b => le a b = true) (sortBy le l) := by
  intro l
  induction l with
  | nil => simp [sortBy]
  | cons x xs ih => exact pairwise_insertLeBy le htot htrans x _ ih

/-- Lookup in a cons row. -/
theorem getV_cons (kv : String × Value) (r : Row) (c : String) :
    getV (kv :: r) c = if kv.1 == c then kv.2 else getV r c := by
  simp only [getV, List.find?_cons]
  cases h : (kv.1 == c) <;> simp [h]

/-- Dropping the bindings of one key leaves every other key's cell
unchanged. -/
theorem getV_filter_ne (r : Row) (s c : String) (h : ¬ c = s) :
    getV (r.filter (fun kv => decide ¬ kv.1 = s)) c = getV r c := by
  induction r with
  | nil => rfl
  | cons kv r ih =>
    rw [List.filter_cons]
    by_cases hk : kv.1 = s
    · have hp : (decide ¬ kv.1 = s) = false := by simp [hk]
      have hne : (kv.1 == c) = false :=
        beq_eq_false_iff_ne.mpr (fun he => h (he ▸ hk))
      rw [hp]
      simp only [Bool.false_eq_true, if_false]
      rw [ih, getV_cons, hne]
      simp
    · have hp : (decide ¬ kv.1 = s) = true := by simp [hk]
      rw [hp]
      simp only [if_true]
      rw [getV_cons, getV_cons, ih]

/-- Lookup in a row built from a list of keys by mapping. -/
theorem getV_map_keys (l : List String) (f : String → Value) (c : String) :
    getV (l.map (fun x => (x, f x))) c = if c ∈ l then f c else Value.vna := by
  induction l with
  | nil => simp [getV]
  | cons a l ih =>
    simp only [List.map_cons, getV_cons]
    by_cases h : a = c
    · subst h; simp
    · have hne : (a == c) = false := beq_eq_false_iff_ne.mpr h
      have hmem : (c ∈ a :: l) ↔ (c ∈ l) := by
        rw [List.mem_cons]
        constructor
        · intro hc
          rcases hc with hc | hc
          · exact absurd hc.symm h
          · exact hc
        · exact Or.inr
      rw [hne]
      simp only [Bool.false_eq_true, if_false]
      rw [ih]
      simp [hmem]

/-- Lookup in an aggregated output row: the key cell holds the group key;
a kept numeric column holds the group's sum; everything else is absent. -/
theorem getV_aggRow (rows : List Row) (key : String) (numCols : List String)
    (k : String) (c : String) :
    getV (aggRow rows key numCols k) c =
      if c = key then Value.vstr k
      else if c ∈ numCols then
        Value.vnum (sumCol (rows.filter (fun r =>
          decide (getV r key = Value.vstr k))) c)
      else Value.vna := by
  simp only [aggRow, getV_cons]
  by_cases h : c = key
  · subst h; simp
  · have hne : (key == c) = false := beq_eq_false_iff_ne.mpr (fun he => h he.symm)
    rw [hne]
    simp [h, getV_map_keys]

/-- Every group key is the `key`-cell of some row. -/
theorem mem_groupKeys {rows : List Row} {key k : String}
    (h : k ∈ groupKeys rows key) : ∃ r ∈ rows, getV r key = Value.vstr k := by
  simp only [groupKeys] at h
  rcases List.mem_filterMap.mp (List.mem_dedup.mp h) with ⟨r, hr, hm⟩
  refine ⟨r, hr, ?_⟩
  cases hv : getV r key with
  | vstr s =>
    have hm2 : (some s : Option String) = some k := by
      rw [hv] at hm
      exact hm
    rw [Option.some.inj hm2]
  | vnum n =>
    have hm2 : (none : Option String) = some k := by
      rw [hv] at hm
      exact hm
    cases hm2
  | vna =>
    have hm2 : (none : Option String) = some k := by
      rw [hv] at hm
      exact hm
    cases hm2

/-- The group keys are distinct. -/
theorem groupKeys_nodup (rows : List Row) (key : String) :
    (groupKeys rows key).Nodup :=
  List.nodup_dedup _

/-- Summing a column whose cells all equal `i` over `n` rows yields
`n * i`. -/
theorem sumCol_const (l : List Row) (c : String) (i : Int)
    (h : ∀ r ∈ l, getV r c = Value.vnum i) :
    sumCol l c = (l.length : Int) * i := by
  induction l with
  | nil => simp [sumCol]
  | cons r l ih =>
    have h1 : getV r c = Value.vnum i := h r (List.mem_cons_self r l)
    have h2 := ih (fun r2 hr2 => h r2 (List.mem_cons_of_mem _ hr2))
    simp only [sumCol, List.map_cons, List.sum_cons] at *
    rw [h1, h2]
    simp only [numOf, List.length_cons]
    push_cast
    ring

/-- `Value.vstr` is injective. -/
theorem vstr_injective : Function.Injective Value.vstr := by
  intro a b h
  cases h
  rfl

/-- Shape of a successful `get_stats` result: either no rows (empty table
or absent player), or the grouped-and-summed rows over the player's
filtered, `player`-dropped frame. -/
theorem get_stats_ok_shape (T : DF) (p : String) (R : DF)
    (h : get_stats T p = Except.ok R) :
    R.rows = [] ∨
      ("format" ∈ (dropColDF (filterEqDF T "player" (Value.vstr p)) "player").cols ∧
        R.rows =
          (sortBy strLeB
            (groupKeys (dropColDF (filterEqDF T "player" (Value.vstr p)) "player").rows
              "format")).map
            (aggRow (dropColDF (filterEqDF T "player" (Value.vstr p)) "player").rows
              "format"
              ((dropColDF (filterEqDF T "player" (Value.vstr p)) "player").cols.filter
                (fun c => ¬ c = "format" ∧
                  numericCol
                    (dropColDF (filterEqDF T "player" (Value.vstr p)) "player").rows c)))) := by
  unfold get_stats at h
  split at h
  · left
    cases h
    rfl
  · split at h
    · split at h
      · unfold groupbySum at h
        split at h
        · right
          cases h
          exact ⟨by assumption, rfl⟩
        · cases h
      · left
        cases h
        rfl
    · cases h

/-- C3.  On an empty table, or a player absent from the `player` column,
the aggregator returns the empty frame (and in particular does not
raise). -/
theorem C3_absent_player_yields_empty (T : DF) (p : String)
    (h : T.rows = [] ∨ ("player" ∈ T.cols ∧ Value.vstr p ∉ playerVals T)) :
    get_stats T p = Except.ok emptyDF := by
  rcases h with h | ⟨hc, hm⟩
  · simp [get_stats, DF.isEmpty, h]
  · by_cases he : T.rows.isEmpty
    · simp [get_stats, DF.isEmpty, he]
    · simp [get_stats, DF.isEmpty, he, hc, hm]

/-- Witness for C3 on concrete data: "Nobody" is not in the batting
table. -/
theorem C3_absent_player_yields_empty_witness :
    get_stats exBattingTable "Nobody" = Except.ok emptyDF :=
  C3_absent_player_yields_empty exBattingTable "Nobody"
    (Or.inr ⟨by decide, by decide⟩)

/-- C4.  A successful aggregation yields at most one row per format (the
format cells of the result are pairwise distinct), and every result row's
format is the format of one of the player's rows in the input table. -/
theorem C4_one_row_per_present_format (T : DF) (p : String) (R : DF)
    (h : get_stats T p = Except.ok R) :
    (R.rows.map (fun r => getV r "format")).Nodup ∧
      ∀ r ∈ R.rows, ∃ f : String, getV r "format" = Value.vstr f ∧
        ∃ row ∈ T.rows, getV row "player" = Value.vstr p ∧
          getV row "format" = Value.vstr f := by
  rcases get_stats_ok_shape T p R h with hnil | ⟨hfc, hrows⟩
  · rw [hnil]
    exact ⟨List.nodup_nil, by intro r hr; cases hr⟩
  · constructor
    · rw [hrows, List.map_map]
      have hcomp : ((fun r => getV r "format") ∘
          (aggRow (dropColDF (filterEqDF T "player" (Value.vstr p)) "player").rows
            "format"
            ((dropColDF (filterEqDF T "player" (Value.vstr p)) "player").cols.filter
              (fun c => ¬ c = "format" ∧
                numericCol
                  (dropColDF (filterEqDF T "player" (Value.vstr p)) "player").rows c))))
          = fun k => Value.vstr k := by
        funext k
        simp only [Function.comp]
        rw [getV_aggRow]
        simp
      rw [hcomp]
      refine List.Nodup.map vstr_injective ?_
      exact ((perm_sortBy strLeB _).nodup_iff).mpr (groupKeys_nodup _ _)
    · intro r hr
      rw [hrows] at hr
      rcases List.mem_map.mp hr with ⟨k, hk, hkr⟩
      refine ⟨k, ?_, ?_⟩
      · rw [← hkr, getV_aggRow]
        simp
      · rcases mem_groupKeys (mem_sortBy hk) with ⟨dr, hdr, hdrf⟩
        simp only [dropColDF, filterEqDF, List.mem_map] at hdr
        rcases hdr with ⟨row, hrowmem, hrowdrop⟩
        have hrow2 := List.mem_filter.mp hrowmem
        refine ⟨row, hrow2.1, of_decide_eq_true hrow2.2, ?_⟩
        rw [← getV_filter_ne row "player" "format" (by decide)]
        rw [hrowdrop]
        exact hdrf

/-- Witness for C4 on concrete data. -/
theorem C4_one_row_per_present_format_witness :
    (exAggOut.rows.map (fun r => getV r "format")).Nodup ∧
      ∀ r ∈ exAggOut.rows, ∃ f : String, getV r "format" = Value.vstr f ∧
        ∃ row ∈ exBattingTable.rows, getV row "player" = Value.vstr "A Sharma" ∧
          getV row "format" = Value.vstr f :=
  C4_one_row_per_present_format exBattingTable "A Sharma" exAggOut (by decide)

/-- A three-format table in non-sorted input order (TEST, ODI, T20). -/
def exSortTable : DF :=
  ⟨["player", "format", "runs"],
   [[("player", Value.vstr "Z"), ("format", Value.vstr "TEST"), ("runs", Value.vnum 30)],
    [("player", Value.vstr "Z"), ("format", Value.vstr "ODI"), ("runs", Value.vnum 50)],
    [("player", Value.vstr "Z"), ("format", Value.vstr "T20"), ("runs", Value.vnum 20)]]⟩

/-- The aggregation of `exSortTable` for "Z": rows come out in
lexicographic format order ODI, T20, TEST — not in input order. -/
def exSortOut : DF :=
  ⟨["format", "runs"],
   [[("format", Value.vstr "ODI"), ("runs", Value.vnum 50)],
    [("format", Value.vstr "T20"), ("runs", Value.vnum 20)],
    [("format", Value.vstr "TEST"), ("runs", Value.vnum 30)]]⟩

/-- C9.  For a player present in the table, the rows of a successful
aggregation are ordered lexicographically ascending (by code point) on
their format value — the order `groupby(sort=True)` imposes, not the
input-row order. -/
theorem C9_formats_sorted_lexicographically (T : DF) (p : String) (R : DF)
    (hp : Value.vstr p ∈ playerVals T)
    (h : get_stats T p = Except.ok R) :
    ∃ ks : List String,
      R.rows.map (fun r => getV r "format") = ks.map Value.vstr ∧
        List.Pairwise (fun a b => strLeB a b = true) ks := by
  rcases get_stats_ok_shape T p R h with hnil | ⟨hfc, hrows⟩
  · exact ⟨[], by simp [hnil], List.Pairwise.nil⟩
  · refine ⟨sortBy strLeB
      (groupKeys (dropColDF (filterEqDF T "player" (Value.vstr p)) "player").rows
        "format"), ?_, ?_⟩
    · rw [hrows, List.map_map]
      have hcomp : ((fun r => getV r "format") ∘
          (aggRow (dropColDF (filterEqDF T "player" (Value.vstr p)) "player").rows
            "format"
            ((dropColDF (filterEqDF T "player" (Value.vstr p)) "player").cols.filter
              (fun c => ¬ c = "format" ∧
                numericCol
                  (dropColDF (filterEqDF T "player" (Value.vstr p)) "player").rows c))))
          = fun k => Value.vstr k := by
        funext k
        simp only [Function.comp]
        rw [getV_aggRow]
        simp
      rw [hcomp]
    · exact pairwise_sortBy strLeB strLeB_total
        (fun a b c => strLeB_trans a b c) _

/-- Witness for C9 on concrete data: the input rows are TEST, ODI, T20,
the output rows are ODI, T20, TEST. -/
theorem C9_formats_sorted_lexicographically_witness :
    ∃ ks : List String,
      exSortOut.rows.map (fun r => getV r "format") = ks.map Value.vstr ∧
        List.Pairwise (fun a b => strLeB a b = true) ks :=
  C9_formats_sorted_lexicographically exSortTable "Z" exSortOut
    (by decide) (by decide)

/-- C10.  The identifier column is summed like any other numeric column:
if all of player `p`'s rows for format `f` carry id `i`, and there are
`n` of them, the aggregated row for `f` carries id `n * i`. -/
theorem C10_id_column_is_summed (T : DF) (p f : String) (i : Int) (n : Nat)
    (R : DF) (r : Row)
    (hid : "id" ∈ T.cols)
    (h : get_stats T p = Except.ok R)
    (hr : r ∈ R.rows)
    (hf : getV r "format" = Value.vstr f)
    (hnum : ∀ row ∈ T.rows, getV row "player" = Value.vstr p →
      isNumV (getV row "id") = true)
    (hall : ∀ row ∈ T.rows, getV row "player" = Value.vstr p →
      getV row "format" = Value.vstr f → getV row "id" = Value.vnum i)
    (hn : ((T.rows.filter (fun row => decide (getV row "player" = Value.vstr p))).filter
      (fun row => decide (getV row "format" = Value.vstr f))).length = n) :
    getV r "id" = Value.vnum ((n : Int) * i) := by
  rcases get_stats_ok_shape T p R h with hnil | ⟨hfc, hrows⟩
  · rw [hnil] at hr
    cases hr
  · rw [hrows] at hr
    rcases List.mem_map.mp hr with ⟨k, hk, hkr⟩
    have hkf : k = f := by
      have h2 := hf
      rw [← hkr, getV_aggRow] at h2
      simp at h2
      exact h2
    have hkf2 : f = k := hkf.symm
    subst hkf2
    have hidnc : "id" ∈
        (dropColDF (filterEqDF T "player" (Value.vstr p)) "player").cols.filter
          (fun c => ¬ c = "format" ∧
            numericCol
              (dropColDF (filterEqDF T "player" (Value.vstr p)) "player").rows c) := by
      refine List.mem_filter.mpr ⟨?_, ?_⟩
      · simp only [dropColDF, filterEqDF]
        exact List.mem_filter.mpr ⟨hid, by decide⟩
      · rw [decide_eq_true_eq]
        refine ⟨by decide, ?_⟩
        refine List.all_eq_true.mpr ?_
        intro dr hdr
        simp only [dropColDF, filterEqDF] at hdr
        rcases List.mem_map.mp hdr with ⟨row, hrow, hdrop⟩
        have hrow2 := List.mem_filter.mp hrow
        rw [← hdrop, getV_filter_ne row "player" "id" (by decide)]
        exact hnum row hrow2.1 (of_decide_eq_true hrow2.2)
    rw [← hkr, getV_aggRow, if_neg (by decide), if_pos hidnc]
    congr 1
    have hgcomp : ((fun r2 => decide (getV r2 "format" = Value.vstr f)) ∘
        (fun r2 : Row => r2.filter (fun kv => decide ¬ kv.1 = "player"))) =
        fun r2 : Row => decide (getV r2 "format" = Value.vstr f) := by
      funext r2
      simp only [Function.comp]
      rw [getV_filter_ne r2 "player" "format" (by decide)]
    have hfilter :
        (dropColDF (filterEqDF T "player" (Value.vstr p)) "player").rows.filter
          (fun r2 => decide (getV r2 "format" = Value.vstr f)) =
        ((filterEqDF T "player" (Value.vstr p)).rows.filter
          (fun r2 => decide (getV r2 "format" = Value.vstr f))).map
            (fun r2 : Row => r2.filter (fun kv => decide ¬ kv.1 = "player")) := by
      simp only [dropColDF]
      rw [List.filter_map, hgcomp]
    rw [hfilter]
    have hsum : sumCol
        (((filterEqDF T "player" (Value.vstr p)).rows.filter
          (fun r2 => decide (getV r2 "format" = Value.vstr f))).map
            (fun r2 : Row => r2.filter (fun kv => decide ¬ kv.1 = "player"))) "id" =
        sumCol ((filterEqDF T "player" (Value.vstr p)).rows.filter
          (fun r2 => decide (getV r2 "format" = Value.vstr f))) "id" := by
      have hfun : ((fun r3 : Row => numOf (getV r3 "id")) ∘
          (fun r2 : Row => r2.filter (fun kv => decide ¬ kv.1 = "player"))) =
          fun r3 : Row => numOf (getV r3 "id") := by
        funext r2
        simp only [Function.comp]
        rw [getV_filter_ne r2 "player" "id" (by decide)]
      simp only [sumCol, List.map_map]
      rw [hfun]
    rw [hsum]
    have hconst : ∀ x ∈ (filterEqDF T "player" (Value.vstr p)).rows.filter
        (fun r2 => decide (getV r2 "format" = Value.vstr f)),
        getV x "id" = Value.vnum i := by
      intro x hx
      have hx2 := List.mem_filter.mp hx
      simp only [filterEqDF] at hx2
      have hx3 := List.mem_filter.mp hx2.1
      exact hall x hx3.1 (of_decide_eq_true hx3.2) (of_decide_eq_true hx2.2)
    rw [sumCol_const _ _ i hconst]
    have hlen : ((filterEqDF T "player" (Value.vstr p)).rows.filter
        (fun r2 => decide (getV r2 "format" = Value.vstr f))).length = n := hn
    rw [hlen]

/-- The ODI row of the example aggregation. -/
def exAggRowODI : Row :=
  [("format", Value.vstr "ODI"), ("id", Value.vnum 1), ("runs", Value.vnum 50),
   ("average_score", Value.vnum 50), ("strike_rate", Value.vnum 80)]

/-- Witness for C10 on concrete data: one ODI row with id 1, so the
aggregated ODI row carries id `1 * 1`. -/
theorem C10_id_column_is_summed_witness :
    getV exAggRowODI "id" = Value.vnum (((1 : Nat) : Int) * 1) :=
  C10_id_column_is_summed exBattingTable "A Sharma" "ODI" 1 1 exAggOut
    exAggRowODI (by decide) (by decide) (by decide) (by decide)
    (by decide) (by decide) (by decide)

/-- Filtering by format commutes with dropping the `player` column. -/
theorem filter_format_map_dropPlayer (l : List Row) (k : String) :
    (l.map (fun r2 : Row => r2.filter (fun kv => decide ¬ kv.1 = "player"))).filter
      (fun r2 => decide (getV r2 "format" = Value.vstr k)) =
    (l.filter (fun r2 => decide (getV r2 "format" = Value.vstr k))).map
      (fun r2 : Row => r2.filter (fun kv => decide ¬ kv.1 = "player")) := by
  rw [List.filter_map]
  have hfun : ((fun r2 => decide (getV r2 "format" = Value.vstr k)) ∘
      (fun r2 : Row => r2.filter (fun kv => decide ¬ kv.1 = "player"))) =
      fun r2 : Row => decide (getV r2 "format" = Value.vstr k) := by
    funext r2
    simp only [Function.comp]
    rw [getV_filter_ne r2 "player" "format" (by decide)]
  rw [hfun]

/-- Summing a non-`player` column is unchanged by dropping the `player`
column. -/
theorem sumCol_map_dropPlayer (l : List Row) (c : String) (hc : ¬ c = "player") :
    sumCol (l.map (fun r2 : Row => r2.filter (fun kv => decide ¬ kv.1 = "player"))) c =
      sumCol l c := by
  simp only [sumCol, List.map_map]
  have hfun : ((fun r3 : Row => numOf (getV r3 c)) ∘
      (fun r2 : Row => r2.filter (fun kv => decide ¬ kv.1 = "player"))) =
      fun r3 : Row => numOf (getV r3 c) := by
    funext r2
    simp only [Function.comp]
    rw [getV_filter_ne r2 "player" c hc]
  rw [hfun]

/-- A non-`player` column is numeric in the `player`-dropped frame iff it
is numeric before the drop. -/
theorem numericCol_map_dropPlayer (l : List Row) (c : String) (hc : ¬ c = "player") :
    numericCol (l.map (fun r2 : Row => r2.filter (fun kv => decide ¬ kv.1 = "player"))) c =
      numericCol l c := by
  simp only [numericCol, List.all_map]
  have hfun : ((fun r3 : Row => isNumV (getV r3 c)) ∘
      (fun r2 : Row => r2.filter (fun kv => decide ¬ kv.1 = "player"))) =
      fun r3 : Row => isNumV (getV r3 c) := by
    funext r2
    simp only [Function.comp]
    rw [getV_filter_ne r2 "player" c hc]
  rw [hfun]

/-- Group keys are unchanged by dropping the `player` column. -/
theorem groupKeys_map_dropPlayer (l : List Row) :
    groupKeys (l.map (fun r2 : Row => r2.filter (fun kv => decide ¬ kv.1 = "player")))
      "format" = groupKeys l "format" := by
  simp only [groupKeys]
  rw [List.filterMap_map]
  have hfun : ((fun r : Row =>
      match getV r "format" with
      | Value.vstr s => some s
      | _ => none) ∘
      (fun r2 : Row => r2.filter (fun kv => decide ¬ kv.1 = "player"))) =
      fun r : Row =>
        match getV r "format" with
        | Value.vstr s => some s
        | _ => none := by
    funext r2
    simp only [Function.comp]
    rw [getV_filter_ne r2 "player" "format" (by decide)]
  rw [hfun]

/-- C6.  The comparison chart uses the batting metric triple for batting
and wickets otherwise, and its per-player re-aggregation of the filtered
rows produces, column for column (except the dropped `player` column),
the same values as the aggregator applied to that player on the full
category table. -/
theorem C6_chart_matches_aggregator (T : DF) (sel : List String) (p c : String)
    (hps : p ∈ sel)
    (hplc : "player" ∈ T.cols)
    (hfmc : "format" ∈ T.cols)
    (hcp : ¬ c = "player") :
    (metricsFor "Batting" = ["runs", "average_score", "strike_rate"] ∧
      (∀ l : String, ¬ l = "Batting" → metricsFor l = ["wk"])) ∧
    (chartSubset T sel p).map (fun d => d.rows.map (fun r => getV r c)) =
      (get_stats T p).map (fun d => d.rows.map (fun r => getV r c)) := by
  constructor
  · exact ⟨rfl, fun l hl => by simp [metricsFor, hl]⟩
  have hin : filterEqDF (filterInDF T "player" sel) "player" (Value.vstr p) =
      filterEqDF T "player" (Value.vstr p) := by
    simp only [filterEqDF, filterInDF]
    congr 1
    rw [List.filter_filter]
    apply List.filter_congr
    intro x hx
    by_cases hxp : getV x "player" = Value.vstr p
    · have hmem : getV x "player" ∈ sel.map Value.vstr :=
        List.mem_map.mpr ⟨p, hps, hxp.symm⟩
      simp [hxp, hmem, hps]
    · simp [hxp]
  have hcs : chartSubset T sel p =
      groupbySum (filterEqDF T "player" (Value.vstr p)) "format" := by
    rw [chartSubset, hin]
  by_cases hpv : Value.vstr p ∈ playerVals T
  · -- the player has rows: both sides aggregate the same groups
    have hne : ¬ T.rows.isEmpty = true := by
      intro h0
      rw [List.isEmpty_iff] at h0
      simp [playerVals, h0] at hpv
    have hgs : get_stats T p =
        groupbySum (dropColDF (filterEqDF T "player" (Value.vstr p)) "player")
          "format" := by
      simp [get_stats, DF.isEmpty, hne, hplc, hpv]
    have hfmcd : "format" ∈
        (dropColDF (filterEqDF T "player" (Value.vstr p)) "player").cols := by
      simp only [dropColDF, filterEqDF]
      exact List.mem_filter.mpr ⟨hfmc, by decide⟩
    have hfmcE : "format" ∈ (filterEqDF T "player" (Value.vstr p)).cols := hfmc
    rw [hcs, hgs]
    unfold groupbySum
    rw [if_pos hfmcE, if_pos hfmcd]
    simp only [Except.map]
    have hkeys : groupKeys
        (dropColDF (filterEqDF T "player" (Value.vstr p)) "player").rows "format" =
        groupKeys (filterEqDF T "player" (Value.vstr p)).rows "format" := by
      simp only [dropColDF]
      exact groupKeys_map_dropPlayer _
    have hnc : ∀ c2 : String, ¬ c2 = "player" →
        numericCol (dropColDF (filterEqDF T "player" (Value.vstr p)) "player").rows c2 =
        numericCol (filterEqDF T "player" (Value.vstr p)).rows c2 := by
      intro c2 hc2
      simp only [dropColDF]
      exact numericCol_map_dropPlayer _ c2 hc2
    have hmemNC :
        (c ∈ (dropColDF (filterEqDF T "player" (Value.vstr p)) "player").cols.filter
          (fun c2 => ¬ c2 = "format" ∧
            numericCol
              (dropColDF (filterEqDF T "player" (Value.vstr p)) "player").rows c2)) ↔
        (c ∈ (filterEqDF T "player" (Value.vstr p)).cols.filter
          (fun c2 => ¬ c2 = "format" ∧
            numericCol (filterEqDF T "player" (Value.vstr p)).rows c2)) := by
      simp only [List.mem_filter, decide_eq_true_eq]
      constructor
      · intro ⟨h1, h2, h3⟩
        refine ⟨?_, h2, ?_⟩
        · have h4 := List.mem_filter.mp h1
          exact h4.1
        · rw [← hnc c hcp]
          exact h3
      · intro ⟨h1, h2, h3⟩
        refine ⟨?_, h2, ?_⟩
        · simp only [dropColDF]
          refine List.mem_filter.mpr ⟨h1, ?_⟩
          simp [hcp]
        · rw [hnc c hcp]
          exact h3
    have hpoint : ∀ k : String,
        getV (aggRow (filterEqDF T "player" (Value.vstr p)).rows "format"
          ((filterEqDF T "player" (Value.vstr p)).cols.filter
            (fun c2 => ¬ c2 = "format" ∧
              numericCol (filterEqDF T "player" (Value.vstr p)).rows c2)) k) c =
        getV (aggRow
          (dropColDF (filterEqDF T "player" (Value.vstr p)) "player").rows "format"
          ((dropColDF (filterEqDF T "player" (Value.vstr p)) "player").cols.filter
            (fun c2 => ¬ c2 = "format" ∧
              numericCol
                (dropColDF (filterEqDF T "player" (Value.vstr p)) "player").rows c2))
          k) c := by
      intro k
      rw [getV_aggRow, getV_aggRow]
      by_cases hcf : c = "format"
      · simp [hcf]
      · rw [if_neg hcf, if_neg hcf]
        by_cases hmem : c ∈ (filterEqDF T "player" (Value.vstr p)).cols.filter
            (fun c2 => ¬ c2 = "format" ∧
              numericCol (filterEqDF T "player" (Value.vstr p)).rows c2)
        · rw [if_pos hmem, if_pos (hmemNC.mpr hmem)]
          congr 1
          simp only [dropColDF]
          rw [filter_format_map_dropPlayer]
          rw [sumCol_map_dropPlayer _ c hcp]
        · rw [if_neg hmem, if_neg (fun h2 => hmem (hmemNC.mp h2))]
    rw [hkeys]
    have hfuns : ((fun r => getV r c) ∘
        (aggRow (filterEqDF T "player" (Value.vstr p)).rows "format"
          ((filterEqDF T "player" (Value.vstr p)).cols.filter
            (fun c2 => ¬ c2 = "format" ∧
              numericCol (filterEqDF T "player" (Value.vstr p)).rows c2)))) =
        ((fun r => getV r c) ∘
        (aggRow (dropColDF (filterEqDF T "player" (Value.vstr p)) "player").rows
          "format"
          ((dropColDF (filterEqDF T "player" (Value.vstr p)) "player").cols.filter
            (fun c2 => ¬ c2 = "format" ∧
              numericCol
                (dropColDF (filterEqDF T "player" (Value.vstr p)) "player").rows
                c2)))) := by
      funext k
      exact hpoint k
    rw [List.map_map, List.map_map, hfuns]
  · -- the player has no rows: both sides are row-less
    have hgs0 : get_stats T p = Except.ok emptyDF := by
      by_cases he : T.rows.isEmpty
      · simp [get_stats, DF.isEmpty, he]
      · simp [get_stats, DF.isEmpty, he, hplc, hpv]
    have hE0 : (filterEqDF T "player" (Value.vstr p)).rows = [] := by
      simp only [filterEqDF]
      refine List.filter_eq_nil_iff.mpr ?_
      intro x hx
      simp only [decide_eq_true_eq]
      intro hxp
      exact hpv (List.mem_map.mpr ⟨x, hx, hxp⟩)
    have hfmcE : "format" ∈ (filterEqDF T "player" (Value.vstr p)).cols := hfmc
    rw [hcs, hgs0]
    unfold groupbySum
    rw [if_pos hfmcE]
    rw [hE0]
    simp [groupKeys, sortBy, Except.map, emptyDF]

/-- Witness for C6 on concrete data (category batting, metric `runs`). -/
theorem C6_chart_matches_aggregator_witness :
    (metricsFor "Batting" = ["runs", "average_score", "strike_rate"] ∧
      (∀ l : String, ¬ l = "Batting" → metricsFor l = ["wk"])) ∧
    (chartSubset exBattingTable ["A Sharma"] "A Sharma").map
        (fun d => d.rows.map (fun r => getV r "runs")) =
      (get_stats exBattingTable "A Sharma").map
        (fun d => d.rows.map (fun r => getV r "runs")) :=
  C6_chart_matches_aggregator exBattingTable ["A Sharma"] "A Sharma" "runs"
    (by decide) (by decide) (by decide) (by decide)

/-- Concatenation of a list of strings. -/
def strConcat (l : List String) : String := l.foldr (fun a b => a ++ b) ""

/-- The successful result of `get_stats` (the empty frame in the error
case, which the prompt loop never reaches on a successful build). -/
def get_statsOr (df : DF) (p : String) : DF :=
  match get_stats df p with
  | Except.ok d => d
  | Except.error _ => emptyDF

/-- One player's block of the summary prompt: the header line, then the
aggregated batting lines, then the aggregated bowling lines. -/
def playerBlockOf (bt bw : DF) (p : String) : String :=
  "\nPlayer: " ++ p ++ "\n" ++
    strConcat ((get_statsOr bt p).rows.map battingLine) ++
    strConcat ((get_statsOr bw p).rows.map bowlingLine)

/-- String accumulation by `foldl` is the accumulator followed by the
concatenated pieces. -/
theorem foldl_append_str (f : α → String) :
    ∀ (l : List α) (a : String),
      l.foldl (fun s x => s ++ f x) a = a ++ strConcat (l.map f) := by
  intro l
  induction l with
  | nil => intro a; simp [strConcat]
  | cons x xs ih =>
    intro a
    simp only [List.foldl_cons, List.map_cons]
    rw [ih]
    show (a ++ f x) ++ strConcat (xs.map f) = a ++ (f x ++ strConcat (xs.map f))
    rw [String.append_assoc]

/-- A failed accumulator stays failed through the prompt loop. -/
theorem foldl_promptStep_error (bt bw : DF) (e : String) :
    ∀ l : List String, l.foldl (promptStep bt bw) (Except.error e) =
      Except.error e := by
  intro l
  induction l with
  | nil => rfl
  | cons p ps ih => simpa [promptStep] using ih

/-- Unrolling the prompt loop: from any accumulator, a successful run
produces the accumulator followed by one block per player. -/
theorem foldl_promptStep_ok (bt bw : DF) :
    ∀ (l : List String) (a s : String),
      l.foldl (promptStep bt bw) (Except.ok a) = Except.ok s →
        s = a ++ strConcat (l.map (playerBlockOf bt bw)) := by
  intro l
  induction l with
  | nil =>
    intro a s h
    cases h
    simp [strConcat]
  | cons p ps ih =>
    intro a s h
    simp only [List.foldl_cons] at h
    cases hbs : get_stats bt p with
    | error e =>
      rw [promptStep, hbs] at h
      rw [foldl_promptStep_error] at h
      cases h
    | ok bs =>
      cases hws : get_stats bw p with
      | error e =>
        rw [promptStep, hbs, hws] at h
        rw [foldl_promptStep_error] at h
        cases h
      | ok ws =>
        rw [promptStep, hbs, hws] at h
        have h2 := ih _ s h
        rw [h2, foldl_append_str, foldl_append_str]
        simp only [List.map_cons]
        show (((a ++ "\nPlayer: " ++ p ++ "\n") ++
            strConcat (bs.rows.map battingLine)) ++
            strConcat (ws.rows.map bowlingLine)) ++
            strConcat (ps.map (playerBlockOf bt bw)) =
          a ++ strConcat (playerBlockOf bt bw p :: ps.map (playerBlockOf bt bw))
        have hblock : playerBlockOf bt bw p =
            "\nPlayer: " ++ p ++ "\n" ++
              strConcat (bs.rows.map battingLine) ++
              strConcat (ws.rows.map bowlingLine) := by
          rw [playerBlockOf, get_statsOr, get_statsOr, hbs, hws]
        show _ = a ++ (playerBlockOf bt bw p ++ strConcat (ps.map (playerBlockOf bt bw)))
        rw [hblock]
        simp [String.append_assoc]

/-- C7.  A successfully built prompt is the fixed instruction line
followed, for each selected player in order, by a header line with the
player's name, one `battingLine` per aggregated batting row and one
`bowlingLine` per aggregated bowling row; and a field missing from a row
renders as the placeholder dash. -/
theorem C7_prompt_structure (selected : List String) (bt bw : DF) (s : String)
    (h : buildPrompt selected bt bw = Except.ok s) :
    s = "Summarize the cricket performance of the following players:\n" ++
        strConcat (selected.map (playerBlockOf bt bw)) ∧
      ∀ (r : Row) (c : String), r.find? (fun kv => kv.1 == c) = none →
        cellStr r c = "-" := by
  constructor
  · exact foldl_promptStep_ok bt bw selected _ s h
  · intro r c hc
    rw [cellStr, hc]

set_option maxRecDepth 10000 in
/-- Witness for C7 on concrete data: one selected player with two batting
rows and no bowling rows. -/
theorem C7_prompt_structure_witness :
    ("Summarize the cricket performance of the following players:\n\nPlayer: A Sharma\nBatting - ODI: 50 runs, Avg: 50, SR: 80\nBatting - TEST: 30 runs, Avg: 30, SR: 40\n" :
        String) =
      "Summarize the cricket performance of the following players:\n" ++
        strConcat (["A Sharma"].map (playerBlockOf exBattingTable exBowlingTable)) ∧
      ∀ (r : Row) (c : String), r.find? (fun kv => kv.1 == c) = none →
        cellStr r c = "-" :=
  C7_prompt_structure ["A Sharma"] exBattingTable exBowlingTable _ (by decide)
